import Mathlib

/-!
Shallow embedding of `src/lab02/summarizer.py`: a utility that scans the
`.log` files of a directory, parses lines of the shape
`YYYY-MM-DD HH:MM:SS [LEVEL] message` and aggregates counts and timestamp
bounds into a `Summary`.  Strings are modelled as `List Char`, the
filesystem as a static snapshot (`FS`), Python exceptions as the
`Except PyErr` monad.
-/

namespace Lab02

/-- The regex class `\s` of a `str` pattern: CPython's Unicode whitespace
(`Py_UNICODE_ISSPACE`): TAB-CR (0x09-0x0D), FS-US (0x1C-0x1F), space, NEL
(0x85), NBSP (0xA0), Ogham space mark (0x1680), the typographic spaces
U+2000-U+200A, line and paragraph separators (0x2028, 0x2029), narrow
no-break space (0x202F), medium mathematical space (0x205F) and ideographic
space (0x3000). -/
def isSpaceB (c : Char) : Bool :=
  (0x09 ≤ c.toNat && c.toNat ≤ 0x0d) ||
  (0x1c ≤ c.toNat && c.toNat ≤ 0x1f) ||
  c.toNat == 0x20 || c.toNat == 0x85 || c.toNat == 0xa0 || c.toNat == 0x1680 ||
  (0x2000 ≤ c.toNat && c.toNat ≤ 0x200a) ||
  c.toNat == 0x2028 || c.toNat == 0x2029 || c.toNat == 0x202f ||
  c.toNat == 0x205f || c.toNat == 0x3000

/-- Numeric value of a decimal digit character. -/
def digitVal (c : Char) : Nat := c.toNat - 48

/-- `line.rstrip("\n")`: remove every trailing newline character. -/
def rstripNewlines (l : List Char) : List Char :=
  (l.reverse.dropWhile (fun c => c == '\n')).reverse

/-- A `datetime.datetime` value (date plus time of day, second precision,
no timezone), as produced by `datetime.strptime(_, "%Y-%m-%d %H:%M:%S")`. -/
structure DateTime where
  year : Nat
  month : Nat
  day : Nat
  hour : Nat
  minute : Nat
  second : Nat
deriving DecidableEq, Repr

/-- `a < b` on datetimes: Python compares the field tuples lexicographically. -/
def DateTime.ltb (a b : DateTime) : Bool :=
  decide (a.year < b.year) ||
    (a.year == b.year && (decide (a.month < b.month) ||
      (a.month == b.month && (decide (a.day < b.day) ||
        (a.day == b.day && (decide (a.hour < b.hour) ||
          (a.hour == b.hour && (decide (a.minute < b.minute) ||
            (a.minute == b.minute && decide (a.second < b.second))))))))))

/-- Gregorian leap-year rule, as used by `datetime`. -/
def isLeapYear (y : Nat) : Bool :=
  y % 4 == 0 && (y % 100 != 0 || y % 400 == 0)

/-- Number of days of month `m` in year `y` (as accepted by `datetime`). -/
def daysInMonth (y m : Nat) : Nat :=
  if m == 2 then (if isLeapYear y then 29 else 28)
  else if m == 4 || m == 6 || m == 9 || m == 11 then 30
  else 31

/-- The field ranges a `datetime.datetime` can represent (`MINYEAR = 1`;
months 1-12; days bounded by the month length; 24-hour clock). -/
def validDT (y mo d h mi s : Nat) : Prop :=
  1 ≤ y ∧ 1 ≤ mo ∧ mo ≤ 12 ∧ 1 ≤ d ∧ d ≤ daysInMonth y mo ∧ h ≤ 23 ∧ mi ≤ 59 ∧ s ≤ 59

instance (y mo d h mi s : Nat) : Decidable (validDT y mo d h mi s) := by
  unfold validDT; infer_instance

/-- `datetime.strptime(ts, "%Y-%m-%d %H:%M:%S")` applied to a string already
known (from LINE_RE) to have the digit shape `dddd-dd-dd dd:dd:dd`: it
succeeds exactly when the six field values form a representable `datetime`,
and raises `ValueError` (modelled as `none`) otherwise. -/
def strptime (y mo d h mi s : Nat) : Option DateTime :=
  if validDT y mo d h mi s then some ⟨y, mo, d, h, mi, s⟩ else none

/-- Two decimal digits (`\d{2}` of LINE_RE): their value and the rest. -/
def digit2 : List Char → Option (Nat × List Char)
  | a :: b :: r =>
      if a.isDigit && b.isDigit then some (digitVal a * 10 + digitVal b, r) else none
  | _ => none

/-- Four decimal digits (`\d{4}` of LINE_RE): their value and the rest. -/
def digit4 : List Char → Option (Nat × List Char)
  | a :: b :: c :: d :: r =>
      if a.isDigit && b.isDigit && c.isDigit && d.isDigit then
        some (((digitVal a * 10 + digitVal b) * 10 + digitVal c) * 10 + digitVal d, r)
      else none
  | _ => none

/-- A literal character of LINE_RE. -/
def lit (c : Char) : List Char → Option (List Char)
  | d :: r => if d == c then some r else none
  | [] => none

/-- `\s+` of LINE_RE: one-or-more whitespace characters.  Both occurrences in
LINE_RE are followed either by the literal `[` (not whitespace) or by `.*$`
(where every shorter match also succeeds whenever the maximal one does), so
maximal munch is an exact model of the backtracking regex engine. -/
def ws1 : List Char → Option (List Char)
  | c :: r => if isSpaceB c then some (List.dropWhile isSpaceB r) else none
  | [] => none

/-- The alternation `INFO|WARNING|ERROR` of LINE_RE (first characters are
distinct, so the alternation is deterministic). -/
def matchLevel (l : List Char) : Option (String × List Char) :=
  if l.take 4 = "INFO".data then some ("INFO", l.drop 4)
  else if l.take 7 = "WARNING".data then some ("WARNING", l.drop 7)
  else if l.take 5 = "ERROR".data then some ("ERROR", l.drop 5)
  else none

/-- `.*$` applied to a string with no trailing newline: the remainder may be
anything without a newline character. -/
def noNewline (l : List Char) : Bool := l.all (fun c => !(c == '\n'))

/-- The date half of the group `ts` of LINE_RE: `\d{4}-\d{2}-\d{2}`.  Returns
the year, month and day values and the unconsumed rest of the line. -/
def matchDate (l0 : List Char) : Option ((Nat × Nat × Nat) × List Char) :=
  (digit4 l0).bind fun (y : Nat × List Char) =>
  (lit '-' y.2).bind fun (la : List Char) =>
  (digit2 la).bind fun (mo : Nat × List Char) =>
  (lit '-' mo.2).bind fun (lb : List Char) =>
  (digit2 lb).bind fun (d : Nat × List Char) =>
  some ((y.1, mo.1, d.1), d.2)

/-- The time-of-day half of the group `ts`: `\d{2}:\d{2}:\d{2}`. -/
def matchClock (l0 : List Char) : Option ((Nat × Nat × Nat) × List Char) :=
  (digit2 l0).bind fun (h : Nat × List Char) =>
  (lit ':' h.2).bind fun (ld : List Char) =>
  (digit2 ld).bind fun (mi : Nat × List Char) =>
  (lit ':' mi.2).bind fun (le : List Char) =>
  (digit2 le).bind fun (s : Nat × List Char) =>
  some ((h.1, mi.1, s.1), s.2)

/-- The whole group `ts` (date, a literal space, time of day). -/
def matchTs (l0 : List Char) : Option ((Nat × Nat × Nat × Nat × Nat × Nat) × List Char) :=
  (matchDate l0).bind fun (dr : (Nat × Nat × Nat) × List Char) =>
  (lit ' ' dr.2).bind fun (lc : List Char) =>
  (matchClock lc).bind fun (cr : (Nat × Nat × Nat) × List Char) =>
  some ((dr.1.1, dr.1.2.1, dr.1.2.2, cr.1.1, cr.1.2.1, cr.1.2.2), cr.2)

/-- The part of LINE_RE after the timestamp:
`\s+\[(?P<level>INFO|WARNING|ERROR)\]\s+(?P<msg>.*)$`. -/
def matchTail (v : Nat × Nat × Nat × Nat × Nat × Nat) (l5 : List Char) :
    Option ((Nat × Nat × Nat × Nat × Nat × Nat) × String) :=
  (ws1 l5).bind fun (l6 : List Char) =>
  (lit '[' l6).bind fun (l7 : List Char) =>
  (matchLevel l7).bind fun (lv : String × List Char) =>
  (lit ']' lv.2).bind fun (l8 : List Char) =>
  (ws1 l8).bind fun (l9 : List Char) =>
  if noNewline l9 then some (v, lv.1) else none

/-- `LINE_RE.match` on an input whose trailing newlines are stripped:
`^(?P<ts>\d{4}-\d{2}-\d{2} \d{2}:\d{2}:\d{2})\s+\[(?P<level>INFO|WARNING|ERROR)\]\s+(?P<msg>.*)$`.
Returns the six timestamp field values and the level token; the message is
matched but carries no information beyond containing no newline. -/
def matchLine (l0 : List Char) : Option ((Nat × Nat × Nat × Nat × Nat × Nat) × String) :=
  (matchTs l0).bind fun (r : (Nat × Nat × Nat × Nat × Nat × Nat) × List Char) =>
  matchTail r.1 r.2

/-- The Python exceptions that can escape the functions under study. -/
inductive PyErr
  | fileNotFoundError
  | notADirectoryError
  | valueError
deriving DecidableEq, Repr

/-- `parse_line(line)`.  `.ok none` is the no-match result; a line that
matches LINE_RE but whose timestamp `strptime` rejects propagates
`ValueError` (the source does not catch it). -/
def parse_line (line : List Char) : Except PyErr (Option (DateTime × String)) :=
  match matchLine (rstripNewlines line) with
  | none => .ok none
  | some ((y, mo, d, h, mi, s), lvl) =>
      match strptime y mo d h mi s with
      | none => .error .valueError
      | some dt => .ok (some (dt, lvl))

/-- The `Summary` dataclass: the running aggregate of one directory scan. -/
@[ext] structure Summary where
  files_processed : Nat := 0
  lines_seen : Nat := 0
  lines_matched : Nat := 0
  lines_skipped : Nat := 0
  info : Nat := 0
  warning : Nat := 0
  error : Nat := 0
  earliest : Option DateTime := none
  latest : Option DateTime := none
deriving DecidableEq, Repr

/-- The fresh all-zero `Summary()` built at the start of `summarize_directory`. -/
def Summary.base : Summary := {}

/-- `if self.earliest is None or ts < self.earliest: self.earliest = ts`. -/
def optEarliest (o : Option DateTime) (ts : DateTime) : Option DateTime :=
  match o with
  | none => some ts
  | some e => if DateTime.ltb ts e then some ts else some e

/-- `if self.latest is None or ts > self.latest: self.latest = ts`
(Python `ts > self.latest` is `self.latest < ts`). -/
def optLatest (o : Option DateTime) (ts : DateTime) : Option DateTime :=
  match o with
  | none => some ts
  | some l => if DateTime.ltb l ts then some ts else some l

/-- `Summary.update_time_bounds`: the two independent conditional field
updates of the source, written as one record update. -/
def Summary.update_time_bounds (s : Summary) (ts : DateTime) : Summary :=
  { s with earliest := optEarliest s.earliest ts, latest := optLatest s.latest ts }

/-- `Summary.bump_level`: increments the counter selected by the level
string; any other string falls through every branch and changes nothing. -/
def Summary.bump_level (s : Summary) (level : String) : Summary :=
  if level = "INFO" then { s with info := s.info + 1 }
  else if level = "WARNING" then { s with warning := s.warning + 1 }
  else if level = "ERROR" then { s with error := s.error + 1 }
  else s

/-- Paths, as the strings Python's `pathlib.Path` wraps. -/
abbrev Path := String

/-- A static snapshot of the filesystem, supplying exactly the capabilities
the source consumes: existence and kind tests, directory listing, the text
lines obtained by iterating an opened file (already decoded with
`errors="replace"`, so reading never fails), and `Path.resolve`. -/
structure FS where
  pathExists : Path → Bool
  isDir : Path → Bool
  isFile : Path → Bool
  children : Path → List Path
  fileLines : Path → List (List Char)
  resolve : Path → Path

/-- `pathlib.PurePath.name`: the final path component (after the last `/`). -/
def pathName (p : Path) : List Char :=
  (p.data.reverse.takeWhile (fun c => !(c == '/'))).reverse

/-- `pathlib.PurePath.suffix`: with `i` the index of the last dot of the
name, the slice `name[i:]` when `0 < i < len(name) - 1`, else the empty
string; computed here from the reversed name (`ext` reverses the characters
after the last dot, `before` those in front of it). -/
def pathSuffix (name : List Char) : List Char :=
  match name.reverse.dropWhile (fun c => !(c == '.')) with
  | [] => []
  | _ :: before =>
      if before = [] ∨ name.reverse.takeWhile (fun c => !(c == '.')) = [] then []
      else '.' :: (name.reverse.takeWhile (fun c => !(c == '.'))).reverse

/-- Code-point comparison of strings; `sorted` on same-directory `Path`
objects orders them this way. -/
def strLeB : List Char → List Char → Bool
  | [], _ => true
  | _ :: _, [] => false
  | a :: as, b :: bs =>
      if a.toNat < b.toNat then true
      else if b.toNat < a.toNat then false
      else strLeB as bs

def pathLe (a b : Path) : Prop := strLeB a.data b.data = true

instance : DecidableRel pathLe := fun a b =>
  inferInstanceAs (Decidable (strLeB a.data b.data = true))

/-- `iter_log_files`: the direct children that are regular files with
suffix `.log`, sorted. -/
def iter_log_files (fs : FS) (d : Path) : List Path :=
  List.insertionSort pathLe
    ((fs.children d).filter (fun p => fs.isFile p && pathSuffix (pathName p) == ".log".data))

/-- The body of the per-line loop of `summarize_directory`, for one line:
`lines_seen` is incremented first (inlined below into each branch of the
parse result, which does not inspect the summary), then the parse outcome
selects `lines_skipped` or `lines_matched`/`bump_level`/`update_time_bounds`. -/
def step1 (s : Summary) (line : List Char) : Except PyErr Summary :=
  match parse_line line with
  | .error e => .error e
  | .ok none =>
      .ok { s with lines_seen := s.lines_seen + 1, lines_skipped := s.lines_skipped + 1 }
  | .ok (some (ts, level)) =>
      .ok ((Summary.bump_level
        { s with lines_seen := s.lines_seen + 1, lines_matched := s.lines_matched + 1 }
        level).update_time_bounds ts)

/-- The per-line loop step on the exception-carrying state. -/
def stepLine (es : Except PyErr Summary) (line : List Char) : Except PyErr Summary :=
  match es with
  | .error e => .error e
  | .ok s => step1 s line

/-- The body of the per-file loop of `summarize_directory`: count the file,
then fold its lines. -/
def processFile (fs : FS) (es : Except PyErr Summary) (p : Path) : Except PyErr Summary :=
  match es with
  | .error e => .error e
  | .ok s =>
      (fs.fileLines p).foldl stepLine
        (.ok { s with files_processed := s.files_processed + 1 })

/-- `summarize_directory`: validates the root, then folds the sorted `.log`
files into a fresh `Summary`. -/
def summarize_directory (fs : FS) (d : Path) : Except PyErr Summary :=
  if !fs.pathExists d then .error .fileNotFoundError
  else if !fs.isDir d then .error .notADirectoryError
  else (iter_log_files fs d).foldl (processFile fs) (.ok Summary.base)

/-- Zero-padded two-digit rendering (`strftime` `%m`, `%d`, `%H`, `%M`, `%S`). -/
def pad2str (n : Nat) : String := if n < 10 then "0" ++ toString n else toString n

/-- Four-digit year rendering (`strftime` `%Y`; every parsed year has four
digits). -/
def pad4str (n : Nat) : String :=
  if n < 10 then "000" ++ toString n
  else if n < 100 then "00" ++ toString n
  else if n < 1000 then "0" ++ toString n
  else toString n

/-- `dt.strftime(TS_FORMAT)` with `TS_FORMAT = "%Y-%m-%d %H:%M:%S"`. -/
def strftimeTs (dt : DateTime) : String :=
  pad4str dt.year ++ "-" ++ pad2str dt.month ++ "-" ++ pad2str dt.day ++ " " ++
    pad2str dt.hour ++ ":" ++ pad2str dt.minute ++ ":" ++ pad2str dt.second

/-- A row of `n` repeated characters, as the report's rulers. -/
def ruler (c : Char) (n : Nat) : String := String.mk (List.replicate n c)

/-- `format_report(directory, summary)`: renders the resolved directory and
the nine `Summary` fields into the fixed report text. -/
def format_report (fs : FS) (d : Path) (s : Summary) : String :=
  let earliest : String := match s.earliest with | some e => strftimeTs e | none => "N/A"
  let latest : String := match s.latest with | some l => strftimeTs l | none => "N/A"
  "\n" ++ ruler '=' 20 ++ " Log Summary " ++ ruler '=' 20 ++ "\n" ++
  "Directory:          " ++ fs.resolve d ++ "\n" ++
  "Files processed:    " ++ toString s.files_processed ++ "\n" ++
  ruler '-' 53 ++ "\n" ++
  "Lines seen:         " ++ toString s.lines_seen ++ "\n" ++
  "Lines matched:      " ++ toString s.lines_matched ++ "\n" ++
  "Lines skipped:      " ++ toString s.lines_skipped ++ "\n" ++
  ruler '-' 53 ++ "\n" ++
  "Log Levels:\n" ++
  "  INFO:            " ++ toString s.info ++ "\n" ++
  "  WARNING:         " ++ toString s.warning ++ "\n" ++
  "  ERROR:           " ++ toString s.error ++ "\n" ++
  ruler '-' 53 ++ "\n" ++
  "Earliest timestamp: " ++ earliest ++ "\n" ++
  "Latest timestamp:   " ++ latest ++ "\n" ++
  ruler '=' 53 ++ "\n"

/-! Concrete filesystem snapshots used to instantiate the theorems. -/

/-- The single line of the scenario of the spec. -/
def lineInfo : List Char := "2026-02-06 13:45:01 [INFO] Something happened".data

/-- A directory `/logs` containing one `.log` file with exactly `lineInfo`. -/
def fsOne : FS :=
  { pathExists := fun p => p == "/logs" || p == "/logs/app.log"
    isDir := fun p => p == "/logs"
    isFile := fun p => p == "/logs/app.log"
    children := fun p => if p == "/logs" then ["/logs/app.log"] else []
    fileLines := fun p => if p == "/logs/app.log" then [lineInfo] else []
    resolve := fun p => p }

/-- The timestamp of `lineInfo`. -/
def tsInfo : DateTime := ⟨2026, 2, 6, 13, 45, 1⟩

/-- The summary the scan of `fsOne` produces. -/
def sumOne : Summary :=
  { files_processed := 1, lines_seen := 1, lines_matched := 1, lines_skipped := 0
    info := 1, warning := 0, error := 0, earliest := some tsInfo, latest := some tsInfo }

/-- A directory `/d` whose only child is a regular file named exactly `.log`. -/
def fsDot : FS :=
  { pathExists := fun p => p == "/d" || p == "/d/.log"
    isDir := fun p => p == "/d"
    isFile := fun p => p == "/d/.log"
    children := fun p => if p == "/d" then ["/d/.log"] else []
    fileLines := fun _ => []
    resolve := fun p => p }

/-- Two log lines with distinct timestamps. -/
def lineA : List Char := "2026-02-06 13:45:01 [ERROR] first".data

def lineB : List Char := "2026-02-05 09:00:00 [WARNING] second".data

/-- A directory `/p` with one `.log` file holding `lineA` then `lineB`. -/
def fsPerm1 : FS :=
  { pathExists := fun p => p == "/p" || p == "/p/a.log"
    isDir := fun p => p == "/p"
    isFile := fun p => p == "/p/a.log"
    children := fun p => if p == "/p" then ["/p/a.log"] else []
    fileLines := fun p => if p == "/p/a.log" then [lineA, lineB] else []
    resolve := fun p => p }

/-- `fsPerm1` with the two lines of `/p/a.log` in the opposite order. -/
def fsPerm2 : FS :=
  { pathExists := fun p => p == "/p" || p == "/p/a.log"
    isDir := fun p => p == "/p"
    isFile := fun p => p == "/p/a.log"
    children := fun p => if p == "/p" then ["/p/a.log"] else []
    fileLines := fun p => if p == "/p/a.log" then [lineB, lineA] else []
    resolve := fun p => p }

/-! Order facts about the datetime comparison. -/

theorem ltb_irrefl (a : DateTime) : DateTime.ltb a a = false := by
  simp [DateTime.ltb]

theorem ltb_asymm {a b : DateTime} (h : DateTime.ltb a b = true) :
    DateTime.ltb b a = false := by
  cases a; cases b
  simp only [DateTime.ltb, Bool.or_eq_true, Bool.and_eq_true, decide_eq_true_eq,
    beq_iff_eq, Bool.or_eq_false_iff, Bool.and_eq_false_iff, decide_eq_false_iff_not,
    beq_eq_false_iff_ne, ne_eq] at *
  omega

theorem ltb_antisymm {a b : DateTime} (h1 : DateTime.ltb a b = false)
    (h2 : DateTime.ltb b a = false) : a = b := by
  cases a; cases b
  simp only [DateTime.ltb, Bool.or_eq_true, Bool.and_eq_true, decide_eq_true_eq,
    beq_iff_eq, Bool.or_eq_false_iff, Bool.and_eq_false_iff, decide_eq_false_iff_not,
    beq_eq_false_iff_ne, ne_eq, DateTime.mk.injEq] at *
  omega

theorem ltb_trans {a b c : DateTime} (h1 : DateTime.ltb a b = true)
    (h2 : DateTime.ltb b c = true) : DateTime.ltb a c = true := by
  cases a; cases b; cases c
  simp only [DateTime.ltb, Bool.or_eq_true, Bool.and_eq_true, decide_eq_true_eq,
    beq_iff_eq, Bool.or_eq_false_iff, Bool.and_eq_false_iff, decide_eq_false_iff_not,
    beq_eq_false_iff_ne, ne_eq] at *
  omega

theorem ltb_cases (a b : DateTime) :
    DateTime.ltb a b = true ∨ DateTime.ltb b a = true ∨ a = b := by
  cases h1 : DateTime.ltb a b
  · cases h2 : DateTime.ltb b a
    · exact Or.inr (Or.inr (ltb_antisymm h1 h2))
    · exact Or.inr (Or.inl rfl)
  · exact Or.inl rfl

/-- The value `optEarliest` keeps when a bound is already present. -/
def minD (a b : DateTime) : DateTime := if DateTime.ltb b a then b else a

/-- The value `optLatest` keeps when a bound is already present. -/
def maxD (a b : DateTime) : DateTime := if DateTime.ltb a b then b else a

theorem minD_eq_snd {a b : DateTime} (h : DateTime.ltb b a = true) : minD a b = b := by
  unfold minD; rw [if_pos h]

theorem minD_eq_fst {a b : DateTime} (h : ¬ DateTime.ltb b a = true) : minD a b = a := by
  unfold minD; rw [if_neg h]

theorem maxD_eq_snd {a b : DateTime} (h : DateTime.ltb a b = true) : maxD a b = b := by
  unfold maxD; rw [if_pos h]

theorem maxD_eq_fst {a b : DateTime} (h : ¬ DateTime.ltb a b = true) : maxD a b = a := by
  unfold maxD; rw [if_neg h]

theorem optEarliest_some (e t : DateTime) :
    optEarliest (some e) t = some (minD e t) := by
  unfold optEarliest minD
  rw [apply_ite some]

theorem optLatest_some (l t : DateTime) :
    optLatest (some l) t = some (maxD l t) := by
  unfold optLatest maxD
  rw [apply_ite some]

theorem minD_comm (a b : DateTime) : minD a b = minD b a := by
  rcases ltb_cases a b with h | h | h
  · rw [minD_eq_fst (by simp [ltb_asymm h]), minD_eq_snd h]
  · rw [minD_eq_snd h, minD_eq_fst (by simp [ltb_asymm h])]
  · rw [h]

theorem maxD_comm (a b : DateTime) : maxD a b = maxD b a := by
  rcases ltb_cases a b with h | h | h
  · rw [maxD_eq_snd h, maxD_eq_fst (by simp [ltb_asymm h])]
  · rw [maxD_eq_fst (by simp [ltb_asymm h]), maxD_eq_snd h]
  · rw [h]

theorem minD_assoc (a b c : DateTime) : minD (minD a b) c = minD a (minD b c) := by
  by_cases hba : DateTime.ltb b a = true
  · rw [minD_eq_snd hba]
    by_cases hcb : DateTime.ltb c b = true
    · rw [minD_eq_snd hcb, minD_eq_snd (ltb_trans hcb hba)]
    · rw [minD_eq_fst hcb, minD_eq_snd hba]
  · rw [minD_eq_fst hba]
    by_cases hcb : DateTime.ltb c b = true
    · rw [minD_eq_snd hcb]
    · rw [minD_eq_fst hcb]
      have hca : ¬ DateTime.ltb c a = true := by
        intro hca
        rcases ltb_cases a b with h | h | h
        · rw [ltb_trans hca h] at hcb; exact hcb rfl
        · exact hba h
        · rw [h] at hca; rw [hca] at hcb; exact hcb rfl
      rw [minD_eq_fst hca, minD_eq_fst hba]

theorem maxD_assoc (a b c : DateTime) : maxD (maxD a b) c = maxD a (maxD b c) := by
  by_cases hab : DateTime.ltb a b = true
  · rw [maxD_eq_snd hab]
    by_cases hbc : DateTime.ltb b c = true
    · rw [maxD_eq_snd hbc, maxD_eq_snd (ltb_trans hab hbc)]
    · rw [maxD_eq_fst hbc, maxD_eq_snd hab]
  · rw [maxD_eq_fst hab]
    by_cases hbc : DateTime.ltb b c = true
    · rw [maxD_eq_snd hbc]
    · rw [maxD_eq_fst hbc]
      have hac : ¬ DateTime.ltb a c = true := by
        intro hac
        rcases ltb_cases b a with h | h | h
        · rw [ltb_trans h hac] at hbc; exact hbc rfl
        · exact hab h
        · rw [h] at hbc; rw [hac] at hbc; exact hbc rfl
      rw [maxD_eq_fst hac, maxD_eq_fst hab]

theorem optEarliest_comm (o : Option DateTime) (t1 t2 : DateTime) :
    optEarliest (optEarliest o t1) t2 = optEarliest (optEarliest o t2) t1 := by
  cases o with
  | none =>
      show optEarliest (some t1) t2 = optEarliest (some t2) t1
      rw [optEarliest_some, optEarliest_some, minD_comm]
  | some e =>
      rw [optEarliest_some e t1, optEarliest_some e t2, optEarliest_some,
        optEarliest_some, minD_assoc, minD_assoc, minD_comm t1 t2]

theorem optLatest_comm (o : Option DateTime) (t1 t2 : DateTime) :
    optLatest (optLatest o t1) t2 = optLatest (optLatest o t2) t1 := by
  cases o with
  | none =>
      show optLatest (some t1) t2 = optLatest (some t2) t1
      rw [optLatest_some, optLatest_some, maxD_comm]
  | some l =>
      rw [optLatest_some l t1, optLatest_some l t2, optLatest_some,
        optLatest_some, maxD_assoc, maxD_assoc, maxD_comm t1 t2]


/-! Facts about the aggregation steps. -/

theorem bump_level_comm (s : Summary) (a b : String) :
    (s.bump_level a).bump_level b = (s.bump_level b).bump_level a := by
  unfold Summary.bump_level
  split_ifs <;> rfl

theorem bump_level_frame (s : Summary) (lvl : String) :
    (s.bump_level lvl).files_processed = s.files_processed ∧
    (s.bump_level lvl).lines_seen = s.lines_seen ∧
    (s.bump_level lvl).lines_matched = s.lines_matched ∧
    (s.bump_level lvl).lines_skipped = s.lines_skipped ∧
    (s.bump_level lvl).earliest = s.earliest ∧
    (s.bump_level lvl).latest = s.latest := by
  unfold Summary.bump_level
  split_ifs <;> exact ⟨rfl, rfl, rfl, rfl, rfl, rfl⟩

theorem bump_level_sum (s : Summary) {lvl : String}
    (h : lvl = "INFO" ∨ lvl = "WARNING" ∨ lvl = "ERROR") :
    (s.bump_level lvl).info + (s.bump_level lvl).warning + (s.bump_level lvl).error
      = s.info + s.warning + s.error + 1 := by
  rcases h with h | h | h <;> subst h <;>
    simp only [Summary.bump_level, if_pos, if_neg, String.reduceEq, ite_true, ite_false,
      reduceIte] <;> omega

/-- Invariant preservation along a left fold. -/
theorem foldl_rec {α β : Type} {f : β → α → β} {P : β → Prop}
    (hstep : ∀ b a, P b → P (f b a)) :
    ∀ (l : List α) (b : β), P b → P (List.foldl f b l)
  | [], _, hb => hb
  | x :: xs, b, hb => foldl_rec hstep xs (f b x) (hstep b x hb)

/-- Left folds of pointwise-equal step functions agree. -/
theorem foldl_congr_fun {α β : Type} {f g : β → α → β} (h : ∀ b a, f b a = g b a) :
    ∀ (l : List α) (b : β), List.foldl f b l = List.foldl g b l
  | [], _ => rfl
  | x :: xs, b => by
      rw [List.foldl_cons, List.foldl_cons, h b x]
      exact foldl_congr_fun h xs (g b x)

/-- A left fold by a right-commutative step is invariant under permutation
of the folded list. -/
theorem foldl_perm {α β : Type} {f : β → α → β}
    (hcomm : ∀ b a1 a2, f (f b a1) a2 = f (f b a2) a1) :
    ∀ {l1 l2 : List α}, l1.Perm l2 → ∀ b, List.foldl f b l1 = List.foldl f b l2 := by
  intro l1 l2 hp
  induction hp with
  | nil => intro b; rfl
  | cons x _ ih => intro b; rw [List.foldl_cons, List.foldl_cons]; exact ih _
  | swap x y l =>
      intro b
      rw [List.foldl_cons, List.foldl_cons, List.foldl_cons, List.foldl_cons, hcomm]
  | trans _ _ ih1 ih2 => intro b; rw [ih1 b, ih2 b]

/-- Every level token produced by the alternation is one of the three. -/
theorem matchLevel_mem {l : List Char} {lv : String × List Char}
    (h : matchLevel l = some lv) :
    lv.1 = "INFO" ∨ lv.1 = "WARNING" ∨ lv.1 = "ERROR" := by
  unfold matchLevel at h
  split_ifs at h
  all_goals (injection h with h2; subst h2; simp)

/-- Every level token produced by LINE_RE is one of the three. -/
theorem matchLine_level {l : List Char} {v : Nat × Nat × Nat × Nat × Nat × Nat}
    {lvl : String} (h : matchLine l = some (v, lvl)) :
    lvl = "INFO" ∨ lvl = "WARNING" ∨ lvl = "ERROR" := by
  unfold matchLine at h
  simp only [Option.bind_eq_some] at h
  obtain ⟨r, _, h⟩ := h
  unfold matchTail at h
  simp only [Option.bind_eq_some] at h
  obtain ⟨l6, _, l7, _, lv, hlv, l8, _, l9, _, h⟩ := h
  have hmem := matchLevel_mem hlv
  split_ifs at h
  simp only [Option.some.injEq, Prod.mk.injEq] at h
  rw [h.2] at hmem
  exact hmem

/-- Every level token produced by `parse_line` is one of the three. -/
theorem parse_line_level {line : List Char} {dt : DateTime} {lvl : String}
    (h : parse_line line = .ok (some (dt, lvl))) :
    lvl = "INFO" ∨ lvl = "WARNING" ∨ lvl = "ERROR" := by
  unfold parse_line at h
  split at h
  · cases h    -- hmm wrong: first branch gives .ok none = .ok (some _): contradiction
  case _ y mo d hh mi s lv heq =>
    cases hs : strptime y mo d hh mi s with
    | none => rw [hs] at h; cases h
    | some dt2 =>
        rw [hs] at h
        simp only [Except.ok.injEq, Option.some.injEq, Prod.mk.injEq] at h
        rw [← h.2]
        exact matchLine_level heq


/-! Frame and bound facts about the summary updates. -/

theorem update_time_bounds_frame (s : Summary) (ts : DateTime) :
    (s.update_time_bounds ts).files_processed = s.files_processed ∧
    (s.update_time_bounds ts).lines_seen = s.lines_seen ∧
    (s.update_time_bounds ts).lines_matched = s.lines_matched ∧
    (s.update_time_bounds ts).lines_skipped = s.lines_skipped ∧
    (s.update_time_bounds ts).info = s.info ∧
    (s.update_time_bounds ts).warning = s.warning ∧
    (s.update_time_bounds ts).error = s.error :=
  ⟨rfl, rfl, rfl, rfl, rfl, rfl, rfl⟩

theorem update_time_bounds_earliest (s : Summary) (ts : DateTime) :
    (s.update_time_bounds ts).earliest = optEarliest s.earliest ts := rfl

theorem update_time_bounds_latest (s : Summary) (ts : DateTime) :
    (s.update_time_bounds ts).latest = optLatest s.latest ts := rfl

theorem optEarliest_ne_none (o : Option DateTime) (ts : DateTime) :
    ¬ optEarliest o ts = none := by
  cases o with
  | none => intro h; cases h
  | some e => rw [optEarliest_some]; intro h; cases h

theorem optLatest_ne_none (o : Option DateTime) (ts : DateTime) :
    ¬ optLatest o ts = none := by
  cases o with
  | none => intro h; cases h
  | some l => rw [optLatest_some]; intro h; cases h

/-- Updating both bounds with the same timestamp keeps the lower bound at or
below the upper bound. -/
theorem opt_bounds_le {eo lo : Option DateTime} (ts : DateTime)
    (hcompat : ∀ e l, eo = some e → lo = some l → DateTime.ltb l e = false)
    (hnone : eo = none ↔ lo = none) :
    ∀ e2 l2, optEarliest eo ts = some e2 → optLatest lo ts = some l2 →
      DateTime.ltb l2 e2 = false := by
  intro e2 l2 he hl
  cases eo with
  | none =>
      cases lo with
      | none =>
          injection he with he; injection hl with hl
          rw [← he, ← hl]; exact ltb_irrefl ts
      | some l => exact absurd (hnone.mp rfl) (by intro hc; cases hc)
  | some e =>
      cases lo with
      | none => exact absurd (hnone.mpr rfl) (by intro hc; cases hc)
      | some l =>
          rw [optEarliest_some] at he; injection he with he
          rw [optLatest_some] at hl; injection hl with hl
          have hle := hcompat e l rfl rfl
          rw [← he, ← hl]
          by_cases h1 : DateTime.ltb ts e = true
          · rw [minD_eq_snd h1]
            by_cases h2 : DateTime.ltb l ts = true
            · rw [maxD_eq_snd h2]; exact ltb_irrefl ts
            · rw [maxD_eq_fst h2]
              exact Bool.not_eq_true _ ▸ h2
          · rw [minD_eq_fst h1]
            by_cases h2 : DateTime.ltb l ts = true
            · rw [maxD_eq_snd h2]
              exact Bool.not_eq_true _ ▸ h1
            · rw [maxD_eq_fst h2]; exact hle

/-- A new timestamp can only lower an existing `earliest` bound. -/
theorem optEarliest_widens {o : Option DateTime} {ts e e2 : DateTime}
    (ho : o = some e) (h2 : optEarliest o ts = some e2) :
    DateTime.ltb e e2 = false := by
  subst ho
  rw [optEarliest_some] at h2; injection h2 with h2
  rw [← h2]
  by_cases h1 : DateTime.ltb ts e = true
  · rw [minD_eq_snd h1]; exact ltb_asymm h1
  · rw [minD_eq_fst h1]; exact ltb_irrefl e

/-- A new timestamp can only raise an existing `latest` bound. -/
theorem optLatest_widens {o : Option DateTime} {ts l l2 : DateTime}
    (ho : o = some l) (h2 : optLatest o ts = some l2) :
    DateTime.ltb l2 l = false := by
  subst ho
  rw [optLatest_some] at h2; injection h2 with h2
  rw [← h2]
  by_cases h1 : DateTime.ltb l ts = true
  · rw [maxD_eq_snd h1]; exact ltb_asymm h1
  · rw [maxD_eq_fst h1]; exact ltb_irrefl l

/-- Fold an invariant through a whole scan: it must hold of the fresh
summary, be kept by each line step, and be kept by counting a file. -/
theorem scan_inv {P : Summary → Prop}
    (hstep : ∀ s line s2, step1 s line = .ok s2 → P s → P s2)
    (hfile : ∀ s : Summary, P s → P { s with files_processed := s.files_processed + 1 })
    (fs : FS) (d : Path) {s : Summary}
    (h : summarize_directory fs d = .ok s) (hbase : P Summary.base) : P s := by
  have hlines : ∀ (ll : List (List Char)) (es2 : Except PyErr Summary),
      (∀ w, es2 = .ok w → P w) → ∀ w, List.foldl stepLine es2 ll = .ok w → P w := by
    intro ll
    induction ll with
    | nil => intro es2 hes2 w hw; exact hes2 w hw
    | cons x xs ih2 =>
        intro es2 hes2 w hw
        rw [List.foldl_cons] at hw
        apply ih2 (stepLine es2 x) _ w hw
        intro z hz
        unfold stepLine at hz
        cases es2 with
        | error e => cases hz
        | ok s3 => exact hstep s3 x z hz (hes2 s3 rfl)
  have hfiles : ∀ (l : List Path) (es : Except PyErr Summary),
      (∀ t, es = .ok t → P t) → ∀ t, List.foldl (processFile fs) es l = .ok t → P t := by
    intro l
    induction l with
    | nil => intro es hes t ht; exact hes t ht
    | cons p ps ih =>
        intro es hes t ht
        rw [List.foldl_cons] at ht
        apply ih (processFile fs es p) _ t ht
        intro u hu
        unfold processFile at hu
        cases es with
        | error e => cases hu
        | ok s0 =>
            apply hlines _ _ _ u hu
            intro w hw
            injection hw with hw
            rw [← hw]
            exact hfile s0 (hes s0 rfl)
  unfold summarize_directory at h
  split_ifs at h
  exact hfiles _ _ (fun t ht => by injection ht with ht; rw [← ht]; exact hbase) s h


/-! Field-projection facts for the two summary updates. -/

theorem utb_lines_seen (x : Summary) (ts : DateTime) :
    (x.update_time_bounds ts).lines_seen = x.lines_seen := rfl

theorem utb_lines_matched (x : Summary) (ts : DateTime) :
    (x.update_time_bounds ts).lines_matched = x.lines_matched := rfl

theorem utb_lines_skipped (x : Summary) (ts : DateTime) :
    (x.update_time_bounds ts).lines_skipped = x.lines_skipped := rfl

theorem utb_info (x : Summary) (ts : DateTime) :
    (x.update_time_bounds ts).info = x.info := rfl

theorem utb_warning (x : Summary) (ts : DateTime) :
    (x.update_time_bounds ts).warning = x.warning := rfl

theorem utb_error (x : Summary) (ts : DateTime) :
    (x.update_time_bounds ts).error = x.error := rfl

theorem bump_lines_seen (x : Summary) (lvl : String) :
    (x.bump_level lvl).lines_seen = x.lines_seen := by
  unfold Summary.bump_level; split_ifs <;> rfl

theorem bump_lines_matched (x : Summary) (lvl : String) :
    (x.bump_level lvl).lines_matched = x.lines_matched := by
  unfold Summary.bump_level; split_ifs <;> rfl

theorem bump_lines_skipped (x : Summary) (lvl : String) :
    (x.bump_level lvl).lines_skipped = x.lines_skipped := by
  unfold Summary.bump_level; split_ifs <;> rfl

theorem bump_earliest (x : Summary) (lvl : String) :
    (x.bump_level lvl).earliest = x.earliest := by
  unfold Summary.bump_level; split_ifs <;> rfl

theorem bump_latest (x : Summary) (lvl : String) :
    (x.bump_level lvl).latest = x.latest := by
  unfold Summary.bump_level; split_ifs <;> rfl

/-- The line step keeps the counting partition invariants. -/
theorem step1_counts {s s2 : Summary} {line : List Char}
    (h : step1 s line = .ok s2)
    (h1 : s.lines_seen = s.lines_matched + s.lines_skipped)
    (h2 : s.lines_matched = s.info + s.warning + s.error) :
    s2.lines_seen = s2.lines_matched + s2.lines_skipped ∧
    s2.lines_matched = s2.info + s2.warning + s2.error := by
  unfold step1 at h
  cases hp : parse_line line with
  | error e => rw [hp] at h; cases h
  | ok o =>
      cases o with
      | none =>
          rw [hp] at h
          injection h with h3
          rw [← h3]
          refine ⟨?_, h2⟩
          show s.lines_seen + 1 = s.lines_matched + (s.lines_skipped + 1)
          omega
      | some p =>
          obtain ⟨ts, lvl⟩ := p
          rw [hp] at h
          injection h with h3
          have hlvl := parse_line_level hp
          rw [← h3]
          rw [utb_lines_seen, utb_lines_matched, utb_lines_skipped,
            utb_info, utb_warning, utb_error,
            bump_lines_seen, bump_lines_matched, bump_lines_skipped,
            bump_level_sum _ hlvl]
          refine ⟨?_, ?_⟩
          · show s.lines_seen + 1 = s.lines_matched + 1 + s.lines_skipped
            omega
          · show s.lines_matched + 1 = s.info + s.warning + s.error + 1
            omega

/-- The line step keeps the bound invariants. -/
theorem step1_bounds {s s2 : Summary} {line : List Char}
    (h : step1 s line = .ok s2)
    (he : s.earliest = none ↔ s.lines_matched = 0)
    (hl : s.latest = none ↔ s.lines_matched = 0)
    (hc : ∀ e l, s.earliest = some e → s.latest = some l → DateTime.ltb l e = false) :
    (s2.earliest = none ↔ s2.lines_matched = 0) ∧
    (s2.latest = none ↔ s2.lines_matched = 0) ∧
    (∀ e l, s2.earliest = some e → s2.latest = some l → DateTime.ltb l e = false) := by
  unfold step1 at h
  cases hp : parse_line line with
  | error e => rw [hp] at h; cases h
  | ok o =>
      cases o with
      | none =>
          rw [hp] at h
          injection h with h3
          rw [← h3]
          exact ⟨he, hl, hc⟩
      | some p =>
          obtain ⟨ts, lvl⟩ := p
          rw [hp] at h
          injection h with h3
          rw [← h3]
          refine ⟨?_, ?_, ?_⟩
          · constructor
            · intro hcontra
              exact absurd hcontra (optEarliest_ne_none _ _)
            · intro hcontra
              rw [utb_lines_matched, bump_lines_matched] at hcontra
              exact absurd hcontra (Nat.succ_ne_zero _)
          · constructor
            · intro hcontra
              exact absurd hcontra (optLatest_ne_none _ _)
            · intro hcontra
              rw [utb_lines_matched, bump_lines_matched] at hcontra
              exact absurd hcontra (Nat.succ_ne_zero _)
          · intro e2 l2 he2 hl2
            refine opt_bounds_le ts ?_ ?_ e2 l2 he2 hl2
            · intro e l hee hll
              rw [bump_earliest] at hee
              rw [bump_latest] at hll
              exact hc e l hee hll
            · rw [bump_earliest, bump_latest]
              exact Iff.trans he (Iff.symm hl)

/-- Claim C2: for every directory input on which `summarize_directory`
returns normally, the returned summary satisfies
`lines_seen = lines_matched + lines_skipped` and
`lines_matched = info + warning + error` (every input, including empty
directories and empty files). -/
theorem claim_C2_count_invariants (fs : FS) (d : Path) (s : Summary)
    (h : summarize_directory fs d = .ok s) :
    s.lines_seen = s.lines_matched + s.lines_skipped ∧
    s.lines_matched = s.info + s.warning + s.error := by
  refine scan_inv (P := fun t => t.lines_seen = t.lines_matched + t.lines_skipped ∧
    t.lines_matched = t.info + t.warning + t.error) ?_ ?_ fs d h ⟨rfl, rfl⟩
  · intro s0 line s2 hst hP
    exact step1_counts hst hP.1 hP.2
  · intro s0 hP
    exact hP

/-- Witness for C2 at the one-file snapshot `fsOne`. -/
theorem claim_C2_witness :
    sumOne.lines_seen = sumOne.lines_matched + sumOne.lines_skipped ∧
    sumOne.lines_matched = sumOne.info + sumOne.warning + sumOne.error :=
  claim_C2_count_invariants fsOne "/logs" sumOne (by rfl)

/-- Claim C3: in every summary a scan returns, the bounds are absent exactly
when no line matched, are ordered when present, and the per-record update
only widens them. -/
theorem claim_C3_bounds (fs : FS) (d : Path) (s : Summary)
    (h : summarize_directory fs d = .ok s) :
    ((s.earliest = none ∧ s.latest = none) ↔ s.lines_matched = 0) ∧
    (∀ e l, s.earliest = some e → s.latest = some l → DateTime.ltb l e = false) ∧
    (∀ (s2 : Summary) (ts e : DateTime), s2.earliest = some e →
      ∃ e2, (s2.update_time_bounds ts).earliest = some e2 ∧ DateTime.ltb e e2 = false) ∧
    (∀ (s2 : Summary) (ts l : DateTime), s2.latest = some l →
      ∃ l2, (s2.update_time_bounds ts).latest = some l2 ∧ DateTime.ltb l2 l = false) := by
  have hinv : (s.earliest = none ↔ s.lines_matched = 0) ∧
      (s.latest = none ↔ s.lines_matched = 0) ∧
      (∀ e l, s.earliest = some e → s.latest = some l → DateTime.ltb l e = false) := by
    refine scan_inv (P := fun t => (t.earliest = none ↔ t.lines_matched = 0) ∧
      (t.latest = none ↔ t.lines_matched = 0) ∧
      (∀ e l, t.earliest = some e → t.latest = some l → DateTime.ltb l e = false))
      ?_ ?_ fs d h ?_
    · intro s0 line s2 hst hP
      exact step1_bounds hst hP.1 hP.2.1 hP.2.2
    · intro s0 hP
      exact hP
    · refine ⟨⟨fun _ => rfl, fun _ => rfl⟩, ⟨fun _ => rfl, fun _ => rfl⟩, ?_⟩
      intro e l h1 _
      cases h1
  obtain ⟨he, hl, hc⟩ := hinv
  refine ⟨⟨fun hp => he.mp hp.1, fun hm => ⟨he.mpr hm, hl.mpr hm⟩⟩, hc, ?_, ?_⟩
  · intro s2 ts e ho
    refine ⟨minD e ts, ?_, ?_⟩
    · rw [update_time_bounds_earliest, ho, optEarliest_some]
    · exact optEarliest_widens ho (by rw [ho, optEarliest_some])
  · intro s2 ts l ho
    refine ⟨maxD l ts, ?_, ?_⟩
    · rw [update_time_bounds_latest, ho, optLatest_some]
    · exact optLatest_widens ho (by rw [ho, optLatest_some])

/-- Witness for C3 at the one-file snapshot `fsOne`. -/
theorem claim_C3_witness :
    ((sumOne.earliest = none ∧ sumOne.latest = none) ↔ sumOne.lines_matched = 0) ∧
    (∀ e l, sumOne.earliest = some e → sumOne.latest = some l →
      DateTime.ltb l e = false) ∧
    (∀ (s2 : Summary) (ts e : DateTime), s2.earliest = some e →
      ∃ e2, (s2.update_time_bounds ts).earliest = some e2 ∧ DateTime.ltb e e2 = false) ∧
    (∀ (s2 : Summary) (ts l : DateTime), s2.latest = some l →
      ∃ l2, (s2.update_time_bounds ts).latest = some l2 ∧ DateTime.ltb l2 l = false) :=
  claim_C3_bounds fsOne "/logs" sumOne (by rfl)


/-- Claim C1 (exhibiting the divergence): the line
`2026-13-01 00:00:00 [INFO] x` matches the character-level shape of LINE_RE
but denotes an impossible month, and `parse_line` propagates `ValueError`
from `strptime` instead of returning the no-match result `None`. -/
theorem parse_line_impossible_date_raises :
    parse_line "2026-13-01 00:00:00 [INFO] x".data = .error .valueError := by rfl

/-- Claim C6: the scan of a directory with exactly one `.log` file holding
the single line `2026-02-06 13:45:01 [INFO] Something happened` returns the
summary of the spec scenario. -/
theorem claim_C6_scenario :
    summarize_directory fsOne "/logs" = .ok sumOne := by rfl

/-- Claim C10: `bump_level` with a string other than INFO, WARNING or ERROR
changes nothing and raises nothing. -/
theorem claim_C10_bump_level_noop (s : Summary) (lvl : String)
    (h : ¬ (lvl = "INFO" ∨ lvl = "WARNING" ∨ lvl = "ERROR")) :
    s.bump_level lvl = s := by
  unfold Summary.bump_level
  rw [if_neg (fun hc => h (Or.inl hc)),
    if_neg (fun hc => h (Or.inr (Or.inl hc))),
    if_neg (fun hc => h (Or.inr (Or.inr hc)))]

/-- Witness for C10: bumping `sumOne` with the level `DEBUG`. -/
theorem claim_C10_witness : sumOne.bump_level "DEBUG" = sumOne :=
  claim_C10_bump_level_noop sumOne "DEBUG" (by decide)


/-- The only exception `parse_line` itself raises is `ValueError`. -/
theorem parse_line_err {line : List Char} {e : PyErr}
    (h : parse_line line = .error e) : e = .valueError := by
  unfold parse_line at h
  split at h
  · cases h
  · split at h
    · injection h with h2; exact h2.symm
    · cases h

/-- The only exception the line step raises is `ValueError`. -/
theorem step1_err {s : Summary} {line : List Char} {e : PyErr}
    (h : step1 s line = .error e) : e = .valueError := by
  unfold step1 at h
  cases hp : parse_line line with
  | error e2 =>
      rw [hp] at h
      injection h with h2
      rw [← h2]
      exact parse_line_err hp
  | ok o =>
      cases o with
      | none => rw [hp] at h; cases h
      | some p => obtain ⟨ts, lvl⟩ := p; rw [hp] at h; cases h

/-- The per-file fold can fail only with `ValueError`, never with the two
root-validation errors. -/
theorem scan_no_dir_errors (fs : FS) (l : List Path) (es : Except PyErr Summary)
    (hes : es ≠ .error .fileNotFoundError ∧ es ≠ .error .notADirectoryError) :
    List.foldl (processFile fs) es l ≠ .error .fileNotFoundError ∧
    List.foldl (processFile fs) es l ≠ .error .notADirectoryError := by
  refine foldl_rec (P := fun es2 : Except PyErr Summary =>
    es2 ≠ Except.error PyErr.fileNotFoundError ∧
    es2 ≠ Except.error PyErr.notADirectoryError) ?_ l es hes
  intro b p hb
  unfold processFile
  cases b with
  | error e => exact hb
  | ok s0 =>
      refine foldl_rec (P := fun es2 : Except PyErr Summary =>
        es2 ≠ Except.error PyErr.fileNotFoundError ∧
        es2 ≠ Except.error PyErr.notADirectoryError) ?_ _ _
        ⟨(by intro hc; cases hc), (by intro hc; cases hc)⟩
      intro b2 line hb2
      unfold stepLine
      cases b2 with
      | error e => exact hb2
      | ok s3 =>
          constructor
          · intro hc; cases step1_err hc
          · intro hc; cases step1_err hc

/-- Claim C4: `summarize_directory` fails with the directory-not-found error
exactly when the path does not exist, and with the not-a-directory error
exactly when the path exists but is not a directory; in the embedding the
validation precedes the whole file fold, so no file contributes on an
invalid root. -/
theorem claim_C4_root_validation (fs : FS) (d : Path) :
    (summarize_directory fs d = .error .fileNotFoundError ↔
      fs.pathExists d = false) ∧
    (summarize_directory fs d = .error .notADirectoryError ↔
      (fs.pathExists d = true ∧ fs.isDir d = false)) := by
  unfold summarize_directory
  cases hx : fs.pathExists d with
  | false => simp [hx]
  | true =>
      cases hd : fs.isDir d with
      | false => simp [hx, hd]
      | true =>
          have hne := scan_no_dir_errors fs (iter_log_files fs d) (.ok Summary.base)
            ⟨(by intro hc; cases hc), (by intro hc; cases hc)⟩
          simp only [hx, hd, Bool.not_true, Bool.false_eq_true, if_false]
          constructor
          · constructor
            · intro hc; exact absurd hc hne.1
            · intro hc; cases hc
          · constructor
            · intro hc; exact absurd hc hne.2
            · intro hc; cases hc.2


theorem bump_files_processed (x : Summary) (lvl : String) :
    (x.bump_level lvl).files_processed = x.files_processed := by
  unfold Summary.bump_level; split_ifs <;> rfl

theorem utb_files_processed (x : Summary) (ts : DateTime) :
    (x.update_time_bounds ts).files_processed = x.files_processed := rfl

theorem bump_info (x : Summary) (lvl : String) :
    (x.bump_level lvl).info = x.info + (if lvl = "INFO" then 1 else 0) := by
  unfold Summary.bump_level; split_ifs <;> simp_all

theorem bump_warning (x : Summary) (lvl : String) :
    (x.bump_level lvl).warning = x.warning + (if lvl = "WARNING" then 1 else 0) := by
  unfold Summary.bump_level; split_ifs <;> simp_all

theorem bump_error (x : Summary) (lvl : String) :
    (x.bump_level lvl).error = x.error + (if lvl = "ERROR" then 1 else 0) := by
  unfold Summary.bump_level; split_ifs <;> simp_all

/-- Two consecutive line steps commute: the counters are sums and the
bounds are a min/max fold, so the order of the two lines is immaterial. -/
theorem stepLine_comm (es : Except PyErr Summary) (a b : List Char) :
    stepLine (stepLine es a) b = stepLine (stepLine es b) a := by
  cases es with
  | error e => rfl
  | ok s =>
      show stepLine (step1 s a) b = stepLine (step1 s b) a
      cases hpa : parse_line a with
      | error ea =>
          have hea := parse_line_err hpa; subst hea
          cases hpb : parse_line b with
          | error eb =>
              have heb := parse_line_err hpb; subst heb
              simp only [step1, hpa, hpb, stepLine]
          | ok ob =>
              cases ob with
              | none => simp only [step1, hpa, hpb, stepLine]
              | some p =>
                  obtain ⟨ts, lvl⟩ := p
                  simp only [step1, hpa, hpb, stepLine]
      | ok oa =>
          cases hpb : parse_line b with
          | error eb =>
              have heb := parse_line_err hpb; subst heb
              cases oa with
              | none => simp only [step1, hpa, hpb, stepLine]
              | some p =>
                  obtain ⟨ts, lvl⟩ := p
                  simp only [step1, hpa, hpb, stepLine]
          | ok ob =>
              cases oa with
              | none =>
                cases ob with
                | none => simp only [step1, hpa, hpb, stepLine]
                | some pb =>
                  obtain ⟨tsb, lvb⟩ := pb
                  simp only [step1, hpa, hpb, stepLine]
                  apply congrArg
                  ext <;>
                    (simp [utb_files_processed, utb_lines_seen, utb_lines_matched,
                      utb_lines_skipped, utb_info, utb_warning, utb_error,
                      update_time_bounds_earliest, update_time_bounds_latest,
                      bump_files_processed, bump_lines_seen, bump_lines_matched,
                      bump_lines_skipped, bump_info, bump_warning, bump_error,
                      bump_earliest, bump_latest, optEarliest_comm, optLatest_comm])
              | some pa =>
                obtain ⟨tsa, lva⟩ := pa
                cases ob with
                | none =>
                  simp only [step1, hpa, hpb, stepLine]
                  apply congrArg
                  ext <;>
                    (simp [utb_files_processed, utb_lines_seen, utb_lines_matched,
                      utb_lines_skipped, utb_info, utb_warning, utb_error,
                      update_time_bounds_earliest, update_time_bounds_latest,
                      bump_files_processed, bump_lines_seen, bump_lines_matched,
                      bump_lines_skipped, bump_info, bump_warning, bump_error,
                      bump_earliest, bump_latest, optEarliest_comm, optLatest_comm])
                | some pb =>
                  obtain ⟨tsb, lvb⟩ := pb
                  simp only [step1, hpa, hpb, stepLine]
                  apply congrArg
                  ext <;>
                    (simp [utb_files_processed, utb_lines_seen, utb_lines_matched,
                      utb_lines_skipped, utb_info, utb_warning, utb_error,
                      update_time_bounds_earliest, update_time_bounds_latest,
                      bump_files_processed, bump_lines_seen, bump_lines_matched,
                      bump_lines_skipped, bump_info, bump_warning, bump_error,
                      bump_earliest, bump_latest, optEarliest_comm, optLatest_comm]
                     <;> omega)


/-- Claim C7: replacing every file's lines by any permutation (same multiset
of lines) leaves the whole scan result - counts and both bounds - unchanged. -/
theorem claim_C7_line_order (fs fs2 : FS) (d : Path)
    (hx : fs2.pathExists = fs.pathExists) (hd : fs2.isDir = fs.isDir)
    (hf : fs2.isFile = fs.isFile) (hc : fs2.children = fs.children)
    (hl : ∀ p, (fs2.fileLines p).Perm (fs.fileLines p)) :
    summarize_directory fs2 d = summarize_directory fs d := by
  unfold summarize_directory
  rw [hx, hd]
  have hiter : iter_log_files fs2 d = iter_log_files fs d := by
    unfold iter_log_files
    rw [hc, hf]
  rw [hiter]
  cases hpe : fs.pathExists d with
  | false => rfl
  | true =>
      cases hid : fs.isDir d with
      | false => rfl
      | true =>
          simp only [hpe, hid, Bool.not_true, Bool.false_eq_true, if_false]
          refine foldl_congr_fun ?_ _ _
          intro es p
          unfold processFile
          cases es with
          | error e => rfl
          | ok s0 => exact foldl_perm stepLine_comm (hl p) _

/-- Witness for C7: the two-line file of `fsPerm1` with its lines swapped
(`fsPerm2`) scans to the identical summary. -/
theorem claim_C7_witness :
    summarize_directory fsPerm2 "/p" = summarize_directory fsPerm1 "/p" :=
  claim_C7_line_order fsPerm1 fsPerm2 "/p" rfl rfl rfl rfl
    (by
      intro p
      show (if p == "/p/a.log" then [lineB, lineA] else []).Perm
        (if p == "/p/a.log" then [lineA, lineB] else [])
      split
      · exact List.Perm.swap lineA lineB []
      · exact List.Perm.nil)

/-- Claim C9: `format_report` is a pure function of the resolved directory
path and the nine fields of the summary it is given (the summary itself is
untouched : the embedding is functional and the text depends on nothing
else). -/
theorem claim_C9_format_pure (fs1 fs2 : FS) (d1 d2 : Path) (s1 s2 : Summary)
    (hres : fs1.resolve d1 = fs2.resolve d2)
    (h1 : s1.files_processed = s2.files_processed)
    (h2 : s1.lines_seen = s2.lines_seen)
    (h3 : s1.lines_matched = s2.lines_matched)
    (h4 : s1.lines_skipped = s2.lines_skipped)
    (h5 : s1.info = s2.info)
    (h6 : s1.warning = s2.warning)
    (h7 : s1.error = s2.error)
    (h8 : s1.earliest = s2.earliest)
    (h9 : s1.latest = s2.latest) :
    format_report fs1 d1 s1 = format_report fs2 d2 s2 := by
  unfold format_report
  rw [hres, h1, h2, h3, h4, h5, h6, h7, h8, h9]

/-- Witness for C9: two snapshots with the same resolved path and the same
summary fields format identically. -/
theorem claim_C9_witness :
    format_report fsOne "/x" sumOne = format_report fsDot "/x" sumOne :=
  claim_C9_format_pure fsOne fsDot "/x" "/x" sumOne sumOne
    rfl rfl rfl rfl rfl rfl rfl rfl rfl rfl


/-! The path order used by `sorted`, and the `.suffix` characterisation. -/

theorem strLeB_cons (x y : Char) (xs ys : List Char) :
    strLeB (x :: xs) (y :: ys) = true ↔
      (x.toNat < y.toNat ∨ (x.toNat = y.toNat ∧ strLeB xs ys = true)) := by
  show (if x.toNat < y.toNat then true
    else if y.toNat < x.toNat then false else strLeB xs ys) = true ↔ _
  split_ifs with h1 h2
  · simp [h1]
  · constructor
    · intro hh; cases hh
    · intro hh
      rcases hh with hh | ⟨hh, _⟩ <;> omega
  · have hxy : x.toNat = y.toNat := by omega
    simp [hxy]

theorem strLeB_total (a b : List Char) : strLeB a b = true ∨ strLeB b a = true := by
  induction a generalizing b with
  | nil => exact Or.inl rfl
  | cons x xs ih =>
      cases b with
      | nil => exact Or.inr rfl
      | cons y ys =>
          rcases Nat.lt_trichotomy x.toNat y.toNat with h | h | h
          · exact Or.inl ((strLeB_cons x y xs ys).mpr (Or.inl h))
          · rcases ih ys with h2 | h2
            · exact Or.inl ((strLeB_cons x y xs ys).mpr (Or.inr ⟨h, h2⟩))
            · exact Or.inr ((strLeB_cons y x ys xs).mpr (Or.inr ⟨h.symm, h2⟩))
          · exact Or.inr ((strLeB_cons y x ys xs).mpr (Or.inl h))

theorem strLeB_trans (a b c : List Char) (h1 : strLeB a b = true)
    (h2 : strLeB b c = true) : strLeB a c = true := by
  induction a generalizing b c with
  | nil => rfl
  | cons x xs ih =>
      cases b with
      | nil => cases h1
      | cons y ys =>
          cases c with
          | nil => cases h2
          | cons z zs =>
              rw [strLeB_cons] at h1 h2 ⊢
              rcases h1 with h1 | ⟨h1e, h1r⟩
              · rcases h2 with h2 | ⟨h2e, _⟩
                · exact Or.inl (Nat.lt_trans h1 h2)
                · exact Or.inl (h2e ▸ h1)
              · rcases h2 with h2 | ⟨h2e, h2r⟩
                · exact Or.inl (h1e ▸ h2)
                · exact Or.inr ⟨h1e.trans h2e, ih ys zs h1r h2r⟩

instance : IsTotal Path pathLe :=
  ⟨fun a b => strLeB_total a.data b.data⟩

instance : IsTrans Path pathLe :=
  ⟨fun a b c => strLeB_trans a.data b.data c.data⟩

/-- The head a `dropWhile` stops at does not satisfy the predicate. -/
theorem dropWhile_head_not {α : Type} (p : α → Bool) :
    ∀ (l : List α) (c : α) (t : List α), l.dropWhile p = c :: t → p c = false := by
  intro l
  induction l with
  | nil => intro c t h; cases h
  | cons x xs ih =>
      intro c t h
      rw [List.dropWhile_cons] at h
      by_cases hx : p x = true
      · rw [if_pos hx] at h; exact ih c t h
      · rw [if_neg hx] at h
        injection h with h1 _
        rw [← h1]
        exact Bool.not_eq_true _ ▸ hx

/-- `pathlib` gives a name the suffix `.log` exactly when the name ends in
`.log` and has something (so not only that dot) in front of it. -/
theorem pathSuffix_eq_log (name : List Char) :
    pathSuffix name = ".log".data ↔ ∃ pre, pre ≠ [] ∧ name = pre ++ ".log".data := by
  constructor
  · intro h
    unfold pathSuffix at h
    cases hdw : name.reverse.dropWhile (fun c => !(c == '.')) with
    | nil => rw [hdw] at h; cases h
    | cons c before =>
        rw [hdw] at h
        dsimp only at h
        split_ifs at h with hcond
        injection h with h1 h2
        have hext : name.reverse.takeWhile (fun c => !(c == '.')) = ['g', 'o', 'l'] := by
          have h3 := congrArg List.reverse h2
          simpa using h3
        have hc : c = '.' := by
          have h4 := dropWhile_head_not (fun c => !(c == '.')) name.reverse c before hdw
          simpa using h4
        have hrev : name.reverse = ['g', 'o', 'l'] ++ '.' :: before := by
          conv_lhs =>
            rw [← List.takeWhile_append_dropWhile (fun c => !(c == '.')) name.reverse]
          rw [hext, hdw, hc]
        have hname : name = before.reverse ++ ".log".data := by
          have h5 := congrArg List.reverse hrev
          simpa using h5
        refine ⟨before.reverse, ?_, hname⟩
        intro hb
        exact hcond (Or.inl (by simpa using hb))
  · rintro ⟨pre, hpre, rfl⟩
    have hrev : (pre ++ ".log".data).reverse = 'g' :: 'o' :: 'l' :: '.' :: pre.reverse := by
      simp [List.reverse_append]
    unfold pathSuffix
    rw [hrev]
    simp [List.takeWhile_cons, List.dropWhile_cons, hpre]

/-- The code's filter condition, rephrased as the amended claim states it:
a regular file whose name ends in `.log` but is not exactly `.log`. -/
theorem log_filter_eq (fs : FS) (p : Path) :
    (fs.isFile p && (pathSuffix (pathName p) == ".log".data))
      = (fs.isFile p && (".log".data.isSuffixOf (pathName p)
          && !(pathName p == ".log".data))) := by
  cases hf : fs.isFile p
  · rfl
  · simp only [Bool.true_and]
    rw [Bool.eq_iff_iff]
    simp only [beq_iff_eq, Bool.and_eq_true, Bool.not_eq_true', beq_eq_false_iff_ne, ne_eq,
      List.isSuffixOf_iff_suffix]
    rw [pathSuffix_eq_log]
    constructor
    · rintro ⟨pre, hpre, heq⟩
      refine ⟨⟨pre, heq.symm⟩, ?_⟩
      intro hc
      rw [hc] at heq
      have h6 : pre.length + 4 = 4 := by
        simpa using (congrArg List.length heq.symm)
      exact hpre (List.eq_nil_of_length_eq_zero (by omega))
    · rintro ⟨⟨t, ht⟩, hne⟩
      refine ⟨t, ?_, ht.symm⟩
      intro ht0
      rw [ht0] at ht
      exact hne (by simpa using ht.symm)

/-- Claim C5 (amended): for an existing directory, `iter_log_files` returns
exactly the direct children that are regular files whose name ends in the
literal case-sensitive `.log` - except that a file named exactly `.log` is
not included (its `pathlib` suffix is empty) - sorted by path name. -/
theorem claim_C5_iter_log_files (fs : FS) (d : Path)
    (hex : fs.pathExists d = true) (hdir : fs.isDir d = true) :
    (iter_log_files fs d).Perm ((fs.children d).filter (fun p =>
      fs.isFile p && (".log".data.isSuffixOf (pathName p)
        && !(pathName p == ".log".data)))) ∧
    (iter_log_files fs d).Sorted pathLe := by
  constructor
  · unfold iter_log_files
    refine (List.perm_insertionSort pathLe _).trans ?_
    rw [List.filter_congr (fun p _ => log_filter_eq fs p)]
  · exact List.sorted_insertionSort pathLe _

/-- Counterexample to C5 as stated: in the snapshot `fsDot` the child
`/d/.log` is a regular file of the existing directory `/d` whose name is
exactly `.log` (in particular it ends in `.log`), yet `iter_log_files`
returns the empty list, excluding it. -/
theorem claim_C5_counterexample :
    fsDot.pathExists "/d" = true ∧ fsDot.isDir "/d" = true ∧
    "/d/.log" ∈ fsDot.children "/d" ∧ fsDot.isFile "/d/.log" = true ∧
    pathName "/d/.log" = ".log".data ∧
    ".log".data.isSuffixOf (pathName "/d/.log") = true ∧
    ¬ "/d/.log" ∈ iter_log_files fsDot "/d" := by
  refine ⟨rfl, rfl, ?_, rfl, by rfl, by rfl, ?_⟩
  · show "/d/.log" ∈ ["/d/.log"]
    exact List.mem_cons_self _ _
  · show ¬ "/d/.log" ∈ ([] : List Path)
    simp


/-- A directory `/d2` with two `.log` files (listed out of order), a `.txt`
file, a file named exactly `.log` and a subdirectory. -/
def fsTwo : FS :=
  { pathExists := fun p => p == "/d2" || p == "/d2/b.log" || p == "/d2/a.log" ||
      p == "/d2/notes.txt" || p == "/d2/.log" || p == "/d2/sub"
    isDir := fun p => p == "/d2" || p == "/d2/sub"
    isFile := fun p => p == "/d2/b.log" || p == "/d2/a.log" ||
      p == "/d2/notes.txt" || p == "/d2/.log"
    children := fun p =>
      if p == "/d2" then ["/d2/b.log", "/d2/a.log", "/d2/notes.txt", "/d2/.log", "/d2/sub"]
      else []
    fileLines := fun _ => []
    resolve := fun p => p }

/-- Witness for C5 (amended) at the snapshot `fsTwo`. -/
theorem claim_C5_witness :
    (iter_log_files fsTwo "/d2").Perm ((fsTwo.children "/d2").filter (fun p =>
      fsTwo.isFile p && (".log".data.isSuffixOf (pathName p)
        && !(pathName p == ".log".data)))) ∧
    (iter_log_files fsTwo "/d2").Sorted pathLe :=
  claim_C5_iter_log_files fsTwo "/d2" rfl rfl


/-! Inversion and evaluation facts for the LINE_RE combinators. -/

end Lab02
